import Mathlib

/-
Verification development for the Verlet-Integration-Physics repository
(src/main.rs). The physics core is embedded shallowly: `f32` arithmetic is
modelled by real numbers, `macroquad`'s `Vec2` by a two-component real
vector, and `Vec<VerletObject>` by `List VerletObject`. Randomized colors
are externalized as explicit parameters (they never influence physics).
Rust indexing `self.objects[i]`, which panics when out of bounds, is
modelled totally (out-of-range access leaves state unchanged) for the main
development, and by an `Option`-returning checked variant used to show the
error branch unreachable under the documented preconditions.
-/

noncomputable section

/-- Two-component real vector, modelling macroquad's `Vec2` (f32 pairs). -/
structure Vec2 where
  x : ℝ
  y : ℝ
deriving DecidableEq

namespace Vec2

instance : Zero Vec2 := ⟨⟨0, 0⟩⟩

instance : Add Vec2 := ⟨fun u v => ⟨u.x + v.x, u.y + v.y⟩⟩

instance : Sub Vec2 := ⟨fun u v => ⟨u.x - v.x, u.y - v.y⟩⟩

instance : Neg Vec2 := ⟨fun v => ⟨-v.x, -v.y⟩⟩

instance : SMul ℝ Vec2 := ⟨fun k v => ⟨k * v.x, k * v.y⟩⟩

/-- Vector length, modelling `Vec2::length` (Euclidean norm). -/
def length (v : Vec2) : ℝ := Real.sqrt (v.x ^ 2 + v.y ^ 2)

/-- Componentwise division by a scalar, modelling `Vec2 / f32`. -/
def div (v : Vec2) (k : ℝ) : Vec2 := ⟨v.x / k, v.y / k⟩

end Vec2

/-- Window width constant from the source (960.0). -/
def WINDOW_WIDTH : ℝ := 960

/-- Window height constant from the source (600.0). -/
def WINDOW_HEIGHT : ℝ := 600

/-- Radius of the circular boundary (300.0). -/
def CONSTRAINT_RADIUS : ℝ := 300

/-- Gravity magnitude constant (1.0). -/
def GRAVITY : ℝ := 1

/-- Number of physics substeps per frame (4). -/
def PHYSICS_SUBSTEPS : ℕ := 4

/-- Cosmetic RGBA color, modelling macroquad's `Color`; irrelevant to physics. -/
structure Color where
  r : ℝ
  g : ℝ
  b : ℝ
  a : ℝ

/-- A particle, modelling the `VerletObject` struct. -/
structure VerletObject where
  position : Vec2
  last_position : Vec2
  acceleration : Vec2
  radius : ℝ
  color : Color

namespace VerletObject

/-- Constructor `VerletObject::new`: the randomly generated color is
externalized as the explicit `color` argument. -/
def new (position : Vec2) (radius : ℝ) (color : Color) : VerletObject :=
  { position := position
    last_position := position
    acceleration := 0
    radius := radius
    color := color }

/-- Verlet integration step, modelling `VerletObject::update_position`. -/
def update_position (s : VerletObject) (delta : ℝ) : VerletObject :=
  let velocity := s.position - s.last_position
  { s with
    last_position := s.position
    position := s.position + (velocity + (delta * delta) • s.acceleration)
    acceleration := 0 }

/-- Force accumulation, modelling `VerletObject::accelerate`. -/
def accelerate (s : VerletObject) (acc : Vec2) : VerletObject :=
  { s with acceleration := s.acceleration + acc }

end VerletObject

/-- A distance constraint between two particle indices (`ChainLink`). -/
structure ChainLink where
  a : ℕ
  b : ℕ
  target_distance : ℝ

/-- The world state (`Master`): particle collection plus chain links. -/
structure Master where
  objects : List VerletObject
  chain_links : List ChainLink

namespace Master

/-- Gravity pass, modelling `Master::apply_gravity`. -/
def apply_gravity (m : Master) : Master :=
  { m with objects := m.objects.map (fun o => o.accelerate ⟨0, GRAVITY⟩) }

/-- Center of the circular boundary, `vec2(WINDOW_WIDTH * 0.5, WINDOW_HEIGHT * 0.5)`. -/
def constraintCenter : Vec2 := ⟨WINDOW_WIDTH * 0.5, WINDOW_HEIGHT * 0.5⟩

/-- Boundary constraint applied to one particle: the body of the loop in
`Master::apply_constraint`. -/
def constrainObject (o : VerletObject) : VerletObject :=
  let to_object := o.position - constraintCenter
  let distance := to_object.length
  if CONSTRAINT_RADIUS - o.radius < distance then
    let n := to_object.div distance
    { o with position := constraintCenter + (CONSTRAINT_RADIUS - o.radius) • n }
  else o

/-- The branch condition of `Master::apply_constraint` for one particle:
when it holds, the source normalizes `to_object` by `distance`. -/
def constraintClampTriggered (o : VerletObject) : Prop :=
  CONSTRAINT_RADIUS - o.radius < (o.position - constraintCenter).length

/-- Boundary pass, modelling `Master::apply_constraint`. -/
def apply_constraint (m : Master) : Master :=
  { m with objects := m.objects.map constrainObject }

/-- One iteration of the doubly-nested collision loop in
`Master::solve_collisions`, visiting the ordered index pair `(i, j)`.
The `i == j` case is the `continue`; a missing index cannot occur in the
source (both indices range over `0..object_count`). -/
def collideVisit (objs : List VerletObject) (i j : ℕ) : List VerletObject :=
  if i = j then objs else
  match objs[i]?, objs[j]? with
  | some oi, some oj =>
    let collision_axis := oi.position - oj.position
    let distance := collision_axis.length
    let object_distance := oi.radius + oj.radius
    if distance < object_distance then
      let n := collision_axis.div distance
      let delta := object_distance - distance
      (objs.set i { oi with position := oi.position + (0.5 * delta) • n }).set j
        { oj with position := oj.position - (0.5 * delta) • n }
    else objs
  | _, _ => objs

/-- The ordered pairs visited by the double loop `for i in 0..n { for j in 0..n }`. -/
def pairSweep (n : ℕ) : List (ℕ × ℕ) :=
  (List.range n).flatMap (fun i => (List.range n).map (fun j => (i, j)))

/-- Collision pass, modelling `Master::solve_collisions` (full O(n²) double
loop over ordered pairs, in loop order). -/
def solve_collisions (m : Master) : Master :=
  { m with
    objects := (pairSweep m.objects.length).foldl
      (fun objs p => collideVisit objs p.1 p.2) m.objects }

/-- Processing of one chain link: the body of the loop in
`Master::apply_chain_links`. The axis is read before any mutation; endpoint
`b` is re-read after endpoint `a` was written, as in the source. -/
def linkStep (objs : List VerletObject) (l : ChainLink) : List VerletObject :=
  match objs[l.a]?, objs[l.b]? with
  | some oa, some ob =>
    let axis := oa.position - ob.position
    let distance := axis.length
    let n := axis.div distance
    let delta := l.target_distance - distance
    let objs1 := objs.set l.a { oa with position := oa.position + (0.5 * delta) • n }
    match objs1[l.b]? with
    | some ob1 => objs1.set l.b { ob1 with position := ob1.position - (0.5 * delta) • n }
    | none => objs1
  | _, _ => objs

/-- Chain constraint pass, modelling `Master::apply_chain_links`: links are
processed in collection order, each seeing the positions left by its
predecessors. -/
def apply_chain_links (m : Master) : Master :=
  { m with objects := m.chain_links.foldl linkStep m.objects }

/-- Integration pass, modelling `Master::update_positions`. -/
def update_positions (m : Master) (delta : ℝ) : Master :=
  { m with objects := m.objects.map (fun o => o.update_position delta) }

/-- Pinned position of the anchor particle at index 0:
`vec2(WINDOW_WIDTH * 0.5 - 210.0, WINDOW_HEIGHT * 0.5 + 100.0)`. -/
def anchorPos0 : Vec2 := ⟨WINDOW_WIDTH * 0.5 - 210, WINDOW_HEIGHT * 0.5 + 100⟩

/-- Pinned position of the anchor particle at index 14:
`vec2(WINDOW_WIDTH * 0.5 + 210.0, WINDOW_HEIGHT * 0.5 + 100.0)`. -/
def anchorPos14 : Vec2 := ⟨WINDOW_WIDTH * 0.5 + 210, WINDOW_HEIGHT * 0.5 + 100⟩

/-- Resetting one anchor slot, modelling lines 82-87 (and 89-94) of the
source: the slot is replaced by a freshly constructed particle at the pinned
position with radius 10, keeping the old color (the fresh random color is
immediately overwritten by `old_color`, so the net color is the old one). -/
def resetAnchor (objs : List VerletObject) (idx : ℕ) (pos : Vec2) : List VerletObject :=
  match objs[idx]? with
  | some o => objs.set idx (VerletObject.new pos 10 o.color)
  | none => objs

/-- The inline anchor-reset block of `Master::update`: index 0, then index 14. -/
def resetAnchors (m : Master) : Master :=
  { m with objects := resetAnchor (resetAnchor m.objects 0 anchorPos0) 14 anchorPos14 }

/-- The body of the substep loop in `Master::update`, in source order:
gravity, boundary constraint, collisions, chain links, anchor reset,
integration by the substep delta. -/
def substep (m : Master) (sub_delta : ℝ) : Master :=
  ((((m.apply_gravity).apply_constraint).solve_collisions).apply_chain_links).resetAnchors.update_positions sub_delta

/-- Frame update, modelling `Master::update`: `PHYSICS_SUBSTEPS` iterations
of the substep body with `sub_delta = delta / PHYSICS_SUBSTEPS`. -/
def update (m : Master) (delta : ℝ) : Master :=
  let sub_delta := delta / (PHYSICS_SUBSTEPS : ℝ)
  (List.range PHYSICS_SUBSTEPS).foldl (fun acc _ => acc.substep sub_delta) m

/-- The anchor reset as worded by the spec: the slot is pinned at `pos`,
color preserved, radius 10, `last_position = position` (velocity zeroed)
and zero acceleration. -/
def pinAnchor (objs : List VerletObject) (idx : ℕ) (pos : Vec2) : List VerletObject :=
  match objs[idx]? with
  | some o => objs.set idx
      { position := pos, last_position := pos, acceleration := 0, radius := 10, color := o.color }
  | none => objs

/-- Substep as worded by the spec; compare `Master.substep`, which is the
source's composition. -/
def substepSpec (m : Master) (sub_delta : ℝ) : Master :=
  let afterPasses := m.apply_gravity.apply_constraint.solve_collisions.apply_chain_links
  let pinned :=
    { afterPasses with
      objects := pinAnchor (pinAnchor afterPasses.objects 0 anchorPos0) 14 anchorPos14 }
  pinned.update_positions sub_delta

/-- Checked variant of `linkStep`: Rust's `self.objects[chain_link.a]` /
`[chain_link.b]` panic on an out-of-range index; here that is the `none`
branch. -/
def linkStepChecked (objs : List VerletObject) (l : ChainLink) : Option (List VerletObject) :=
  match objs[l.a]?, objs[l.b]? with
  | some oa, some ob =>
    let axis := oa.position - ob.position
    let distance := axis.length
    let n := axis.div distance
    let delta := l.target_distance - distance
    let objs1 := objs.set l.a { oa with position := oa.position + (0.5 * delta) • n }
    match objs1[l.b]? with
    | some ob1 => some (objs1.set l.b { ob1 with position := ob1.position - (0.5 * delta) • n })
    | none => none
  | _, _ => none

/-- Checked variant of `apply_chain_links`. -/
def applyChainLinksChecked (m : Master) : Option Master := do
  let objs ← m.chain_links.foldlM linkStepChecked m.objects
  pure { m with objects := objs }

/-- Checked variant of the anchor-reset block: Rust's `self.objects[0]` and
`self.objects[14]` panic when fewer than 15 particles exist; here that is
the `none` branch. -/
def resetAnchorsChecked (m : Master) : Option Master :=
  match m.objects[0]? with
  | none => none
  | some o0 =>
    let objs0 := m.objects.set 0 (VerletObject.new anchorPos0 10 o0.color)
    match objs0[14]? with
    | none => none
    | some o14 =>
      some { m with objects := objs0.set 14 (VerletObject.new anchorPos14 10 o14.color) }

/-- Checked variant of the substep body. -/
def substepChecked (m : Master) (sub_delta : ℝ) : Option Master := do
  let m4 ← applyChainLinksChecked (m.apply_gravity.apply_constraint.solve_collisions)
  let m5 ← resetAnchorsChecked m4
  pure (m5.update_positions sub_delta)

/-- Checked variant of `Master::update`. -/
def updateChecked (m : Master) (delta : ℝ) : Option Master :=
  let sub_delta := delta / (PHYSICS_SUBSTEPS : ℝ)
  (List.range PHYSICS_SUBSTEPS).foldlM (fun acc _ => substepChecked acc sub_delta) m

/-- The indexing precondition of `Master::update`: at least 15 particles
(for the two anchor slots) and every chain link's endpoints in range. -/
def validIndices (m : Master) : Prop :=
  15 ≤ m.objects.length ∧
    ∀ l ∈ m.chain_links, l.a < m.objects.length ∧ l.b < m.objects.length

/-- Appending a particle, modelling `master.objects.push(...)` in `main`. -/
def pushObject (m : Master) (o : VerletObject) : Master :=
  { m with objects := m.objects ++ [o] }

end Master

/-- Initial particle generation, modelling `generate_objects`: 15 particles
in a horizontal line spaced 30 apart; the random colors are externalized as
the `colors` argument. -/
def generate_objects (colors : ℕ → Color) : List VerletObject :=
  (List.range 15).map (fun (i : ℕ) =>
    VerletObject.new
      ⟨WINDOW_WIDTH * 0.5 - 210 + (i : ℝ) * 30, WINDOW_HEIGHT * 0.5 + 100⟩
      10 (colors i))

/-- Initial chain links, modelling `generate_chain_links`: for `i` in
`1..=14` a link with endpoints `i - 1` and `i` at target distance 30. -/
def generate_chain_links : List ChainLink :=
  (List.range 14).map (fun k => { a := k, b := k + 1, target_distance := 30 })

/-- A fixed color for concrete instances. -/
def colW : Color := ⟨1, 1, 1, 1⟩

/-- A concrete particle used to instantiate hypothesis-bearing theorems. -/
def pW : VerletObject :=
  { position := ⟨3, 4⟩, last_position := ⟨1, 1⟩, acceleration := 0,
    radius := 5, color := colW }

/-- The initial world of `main`, with all colors fixed to `colW`. -/
def mW : Master :=
  { objects := generate_objects (fun _ => colW), chain_links := generate_chain_links }

/-- A particle outside the boundary: distance 400 from the center. -/
def oC4 : VerletObject :=
  { position := ⟨880, 300⟩, last_position := ⟨880, 300⟩, acceleration := 0,
    radius := 10, color := colW }

/-- One-particle world for the boundary-constraint witness. -/
def mC4 : Master := { objects := [oC4], chain_links := [] }

/-- First particle of an overlapping pair (unit radius, at the origin). -/
def q0 : VerletObject :=
  { position := ⟨0, 0⟩, last_position := ⟨0, 0⟩, acceleration := 0,
    radius := 1, color := colW }

/-- Second particle of an overlapping pair (unit radius, at distance 1). -/
def q1 : VerletObject :=
  { position := ⟨1, 0⟩, last_position := ⟨1, 0⟩, acceleration := 0,
    radius := 1, color := colW }

/-- Two-particle world with one overlapping pair. -/
def mPair : Master := { objects := [q0, q1], chain_links := [] }

/-- Particle 0 of the three-particle collision counterexample. -/
def r0 : VerletObject :=
  { position := ⟨0, 0⟩, last_position := ⟨0, 0⟩, acceleration := 0,
    radius := 1, color := colW }

/-- Particle 1: overlaps particle 0 (distance 1.9 < 2). -/
def r1 : VerletObject :=
  { position := ⟨19 / 10, 0⟩, last_position := ⟨19 / 10, 0⟩, acceleration := 0,
    radius := 1, color := colW }

/-- Particle 2: a large particle overlapping particle 1 from the far side. -/
def r2 : VerletObject :=
  { position := ⟨131 / 20, 0⟩, last_position := ⟨131 / 20, 0⟩, acceleration := 0,
    radius := 5, color := colW }

/-- Three-particle world where a third particle pushes an overlapping pair
back together within one `solve_collisions` call. -/
def mTriple : Master := { objects := [r0, r1, r2], chain_links := [] }

/-- Particle 0 of `mTriple` after the `(0, 1)` collision correction. -/
def r0a : VerletObject := { r0 with position := ⟨-1 / 20, 0⟩ }

/-- Particle 1 of `mTriple` after the `(0, 1)` collision correction. -/
def r1a : VerletObject := { r1 with position := ⟨39 / 20, 0⟩ }

/-- Particle 1 of `mTriple` after the `(1, 2)` collision correction. -/
def r1b : VerletObject := { r1 with position := ⟨5 / 4, 0⟩ }

/-- Particle 2 of `mTriple` after the `(1, 2)` collision correction. -/
def r2b : VerletObject := { r2 with position := ⟨29 / 4, 0⟩ }

/-- Chain-link endpoint particles for the chain witness. -/
def o7a : VerletObject :=
  { position := ⟨10, 0⟩, last_position := ⟨10, 0⟩, acceleration := 0,
    radius := 10, color := colW }

/-- Second chain endpoint, 10 units away from `o7a`. -/
def o7b : VerletObject :=
  { position := ⟨20, 0⟩, last_position := ⟨20, 0⟩, acceleration := 0,
    radius := 10, color := colW }

/-- A link between `o7a` and `o7b` with target distance 30. -/
def l7 : ChainLink := { a := 0, b := 1, target_distance := 30 }

/-- Particle list for the chain witness. -/
def objs7 : List VerletObject := [o7a, o7b]

/-- A small particle sitting exactly at the boundary center. -/
def oCenter : VerletObject :=
  { position := Master.constraintCenter, last_position := Master.constraintCenter,
    acceleration := 0, radius := 10, color := colW }

/-- A particle at the boundary center whose radius exceeds the boundary radius. -/
def oCenterBig : VerletObject :=
  { position := Master.constraintCenter, last_position := Master.constraintCenter,
    acceleration := 0, radius := 301, color := colW }

namespace Vec2

@[simp] theorem zero_x : (0 : Vec2).x = 0 := rfl

@[simp] theorem zero_y : (0 : Vec2).y = 0 := rfl

@[simp] theorem add_x (u v : Vec2) : (u + v).x = u.x + v.x := rfl

@[simp] theorem add_y (u v : Vec2) : (u + v).y = u.y + v.y := rfl

@[simp] theorem sub_x (u v : Vec2) : (u - v).x = u.x - v.x := rfl

@[simp] theorem sub_y (u v : Vec2) : (u - v).y = u.y - v.y := rfl

@[simp] theorem smul_x (k : ℝ) (v : Vec2) : (k • v).x = k * v.x := rfl

@[simp] theorem smul_y (k : ℝ) (v : Vec2) : (k • v).y = k * v.y := rfl

@[simp] theorem div_x (v : Vec2) (k : ℝ) : (v.div k).x = v.x / k := rfl

@[simp] theorem div_y (v : Vec2) (k : ℝ) : (v.div k).y = v.y / k := rfl

theorem ext_xy {u v : Vec2} (hx : u.x = v.x) (hy : u.y = v.y) : u = v := by
  cases u; cases v; cases hx; cases hy; rfl

theorem eq_iff {u v : Vec2} : u = v ↔ u.x = v.x ∧ u.y = v.y := by
  constructor
  · intro h; rw [h]; exact ⟨rfl, rfl⟩
  · intro h; exact ext_xy h.1 h.2

theorem div_eq_smul (v : Vec2) (k : ℝ) : v.div k = k⁻¹ • v := by
  refine ext_xy ?_ ?_ <;>
    simp [div, div_eq_mul_inv, mul_comm]

theorem length_nonneg (v : Vec2) : 0 ≤ v.length := Real.sqrt_nonneg _

theorem length_smul (k : ℝ) (v : Vec2) : (k • v).length = |k| * v.length := by
  cases v
  simp only [length, smul_x, smul_y]
  rw [show ∀ a b : ℝ, (k * a) ^ 2 + (k * b) ^ 2 = k ^ 2 * (a ^ 2 + b ^ 2) by intro a b; ring]
  rw [Real.sqrt_mul (sq_nonneg k), Real.sqrt_sq_eq_abs]

theorem length_eq_zero_iff (v : Vec2) : v.length = 0 ↔ v = 0 := by
  cases v with
  | mk a b =>
    rw [length, Real.sqrt_eq_zero (by positivity), eq_iff]
    constructor
    · intro h
      simp only [zero_x, zero_y] at h ⊢
      constructor
      · nlinarith [sq_nonneg a, sq_nonneg b]
      · nlinarith [sq_nonneg a, sq_nonneg b]
    · rintro ⟨ha, hb⟩
      simp only [zero_x, zero_y] at ha hb
      rw [ha, hb]
      norm_num

theorem length_of_y_eq_zero (v : Vec2) (h : v.y = 0) : v.length = |v.x| := by
  simp [length, h, Real.sqrt_sq_eq_abs]

end Vec2

theorem foldl_range_iterate {α : Type} (f : α → α) (n : ℕ) (x : α) :
    (List.range n).foldl (fun a _ => f a) x = f^[n] x := by
  induction n generalizing x with
  | zero => simp
  | succ k ih =>
    rw [List.range_succ, List.foldl_append, ih]
    simp [Function.iterate_succ_apply']

namespace Master

theorem length_collideVisit (objs : List VerletObject) (i j : ℕ) :
    (collideVisit objs i j).length = objs.length := by
  unfold collideVisit
  split
  · rfl
  split
  · dsimp only
    split
    · simp [List.length_set]
    · rfl
  · rfl

theorem length_linkStep (objs : List VerletObject) (l : ChainLink) :
    (linkStep objs l).length = objs.length := by
  unfold linkStep
  split
  · dsimp only
    split
    · simp [List.length_set]
    · simp [List.length_set]
  · rfl

theorem length_collideFold (ps : List (ℕ × ℕ)) (objs : List VerletObject) :
    (ps.foldl (fun o p => collideVisit o p.1 p.2) objs).length = objs.length := by
  induction ps generalizing objs with
  | nil => rfl
  | cons p ps ih => rw [List.foldl_cons, ih, length_collideVisit]

theorem length_linkFold (ls : List ChainLink) (objs : List VerletObject) :
    (ls.foldl linkStep objs).length = objs.length := by
  induction ls generalizing objs with
  | nil => rfl
  | cons l ls ih => rw [List.foldl_cons, ih, length_linkStep]

theorem length_resetAnchor (objs : List VerletObject) (idx : ℕ) (pos : Vec2) :
    (resetAnchor objs idx pos).length = objs.length := by
  unfold resetAnchor
  split
  · simp [List.length_set]
  · rfl

theorem objects_length_apply_gravity (m : Master) :
    m.apply_gravity.objects.length = m.objects.length := by
  simp [apply_gravity]

theorem objects_length_apply_constraint (m : Master) :
    m.apply_constraint.objects.length = m.objects.length := by
  simp [apply_constraint]

theorem objects_length_solve_collisions (m : Master) :
    m.solve_collisions.objects.length = m.objects.length := by
  simp [solve_collisions, length_collideFold]

theorem objects_length_apply_chain_links (m : Master) :
    m.apply_chain_links.objects.length = m.objects.length := by
  simp [apply_chain_links, length_linkFold]

theorem objects_length_resetAnchors (m : Master) :
    m.resetAnchors.objects.length = m.objects.length := by
  simp [resetAnchors, length_resetAnchor]

theorem objects_length_update_positions (m : Master) (delta : ℝ) :
    (m.update_positions delta).objects.length = m.objects.length := by
  simp [update_positions]

theorem objects_length_substep (m : Master) (sub_delta : ℝ) :
    (m.substep sub_delta).objects.length = m.objects.length := by
  rw [substep, objects_length_update_positions, objects_length_resetAnchors,
    objects_length_apply_chain_links, objects_length_solve_collisions,
    objects_length_apply_constraint, objects_length_apply_gravity]

theorem update_eq_iterate (m : Master) (delta : ℝ) :
    m.update delta = (fun w => Master.substep w (delta / 4))^[4] m := by
  have hc : ((PHYSICS_SUBSTEPS : ℕ) : ℝ) = 4 := by norm_num [PHYSICS_SUBSTEPS]
  unfold Master.update
  dsimp only
  rw [hc, show PHYSICS_SUBSTEPS = 4 from rfl,
    foldl_range_iterate (fun w => Master.substep w (delta / 4)) 4 m]

theorem objects_length_substep_iterate (m : Master) (d : ℝ) (n : ℕ) :
    (((fun w => Master.substep w d)^[n]) m).objects.length = m.objects.length := by
  induction n with
  | zero => rfl
  | succ k ih => rw [Function.iterate_succ_apply', objects_length_substep, ih]

theorem objects_length_update (m : Master) (delta : ℝ) :
    (m.update delta).objects.length = m.objects.length := by
  rw [update_eq_iterate, objects_length_substep_iterate]

end Master

/-- C1: for every world state and frame delta, `Master::update` divides the
delta into exactly 4 equal substeps (sub-delta = delta / 4) and each substep
executes, in order: gravity, boundary constraint, collision resolution,
chain links, reset of the anchor particles at indices 0 and 14 to their
pinned positions (color preserved, velocity and acceleration zeroed), then
integration of every particle by the sub-delta. -/
theorem c1_update_is_four_spec_substeps (m : Master) (delta : ℝ) :
    m.update delta = (fun w => Master.substepSpec w (delta / 4))^[4] m := by
  rw [Master.update_eq_iterate]
  rfl

/-- C2: `VerletObject::update_position` saves the old position into
`last_position`, moves `position` by the implicit velocity plus
`acceleration * dt * dt`, and zeroes the acceleration; with zero
acceleration the motion is exactly the implicit velocity (no damping). -/
theorem c2_update_position_formula (p : VerletObject) (dt : ℝ) :
    (p.update_position dt).last_position = p.position ∧
    (p.update_position dt).position
      = p.position + (p.position - p.last_position) + (dt * dt) • p.acceleration ∧
    (p.update_position dt).acceleration = 0 ∧
    (p.acceleration = 0 →
      (p.update_position dt).position = p.position + (p.position - p.last_position)) := by
  refine ⟨rfl, ?_, rfl, ?_⟩
  · refine Vec2.ext_xy ?_ ?_ <;>
      simp [VerletObject.update_position] <;> ring
  · intro h
    refine Vec2.ext_xy ?_ ?_ <;>
      simp [VerletObject.update_position, h]

/-- Witness for C2 at a concrete particle with zero acceleration. -/
theorem c2_update_position_formula_witness :
    (pW.update_position 1).position = pW.position + (pW.position - pW.last_position) :=
  (c2_update_position_formula pW 1).2.2.2 rfl

namespace Master

theorem resetAnchor_getElem_self (objs : List VerletObject) (idx : ℕ) (pos : Vec2)
    (h : idx < objs.length) :
    (resetAnchor objs idx pos)[idx]? = some (VerletObject.new pos 10 objs[idx].color) := by
  unfold resetAnchor
  rw [List.getElem?_eq_getElem h]
  exact List.getElem?_set_eq_of_lt _ (by simpa using h)

theorem resetAnchor_getElem_ne (objs : List VerletObject) (idx : ℕ) (pos : Vec2) (j : ℕ)
    (h : idx ≠ j) :
    (resetAnchor objs idx pos)[j]? = objs[j]? := by
  unfold resetAnchor
  split
  · rw [List.getElem?_set_ne h]
  · rfl

theorem resetAnchors_getElem_zero (m : Master) (h : 15 ≤ m.objects.length) :
    ∃ c, m.resetAnchors.objects[0]? = some (VerletObject.new anchorPos0 10 c) := by
  refine ⟨m.objects[0].color, ?_⟩
  show (resetAnchor (resetAnchor m.objects 0 anchorPos0) 14 anchorPos14)[0]? = _
  rw [resetAnchor_getElem_ne _ _ _ _ (by omega),
    resetAnchor_getElem_self _ _ _ (by omega)]

theorem resetAnchors_getElem_fourteen (m : Master) (h : 15 ≤ m.objects.length) :
    ∃ c, m.resetAnchors.objects[14]? = some (VerletObject.new anchorPos14 10 c) := by
  have h14 : 14 < (resetAnchor m.objects 0 anchorPos0).length := by
    rw [length_resetAnchor]; omega
  refine ⟨(resetAnchor m.objects 0 anchorPos0)[14].color, ?_⟩
  show (resetAnchor (resetAnchor m.objects 0 anchorPos0) 14 anchorPos14)[14]? = _
  rw [resetAnchor_getElem_self _ _ _ h14]

theorem update_position_of_new (pos : Vec2) (r : ℝ) (c : Color) (d : ℝ) :
    ((VerletObject.new pos r c).update_position d).position = pos := by
  refine Vec2.ext_xy ?_ ?_ <;>
    simp [VerletObject.new, VerletObject.update_position]

theorem update_positions_getElem_acc (m : Master) (d : ℝ) (i : ℕ)
    (hi : i < m.objects.length) :
    ((m.update_positions d).objects[i]?).map VerletObject.acceleration = some 0 := by
  unfold update_positions
  dsimp only
  rw [List.getElem?_map, List.getElem?_eq_getElem hi]
  rfl

theorem substep_anchor_positions (m : Master) (d : ℝ) (h : 15 ≤ m.objects.length) :
    ((m.substep d).objects[0]?).map VerletObject.position = some anchorPos0 ∧
    ((m.substep d).objects[14]?).map VerletObject.position = some anchorPos14 := by
  have hlen :
      m.apply_gravity.apply_constraint.solve_collisions.apply_chain_links.objects.length
        = m.objects.length := by
    rw [objects_length_apply_chain_links, objects_length_solve_collisions,
      objects_length_apply_constraint, objects_length_apply_gravity]
  obtain ⟨c0, h0⟩ :=
    resetAnchors_getElem_zero
      m.apply_gravity.apply_constraint.solve_collisions.apply_chain_links (by omega)
  obtain ⟨c14, h14⟩ :=
    resetAnchors_getElem_fourteen
      m.apply_gravity.apply_constraint.solve_collisions.apply_chain_links (by omega)
  constructor
  · show (((m.apply_gravity.apply_constraint.solve_collisions.apply_chain_links.resetAnchors).update_positions d).objects[0]?).map VerletObject.position = some anchorPos0
    unfold update_positions
    dsimp only
    rw [List.getElem?_map, h0]
    simp [update_position_of_new]
  · show (((m.apply_gravity.apply_constraint.solve_collisions.apply_chain_links.resetAnchors).update_positions d).objects[14]?).map VerletObject.position = some anchorPos14
    unfold update_positions
    dsimp only
    rw [List.getElem?_map, h14]
    simp [update_position_of_new]

end Master

/-- C3: for every world with at least 15 particles and every frame delta,
immediately after `Master::update` returns the particle at index 0 sits
exactly at the fixed anchor coordinate
`(WINDOW_WIDTH * 0.5 - 210, WINDOW_HEIGHT * 0.5 + 100)` and the particle at
index 14 exactly at `(WINDOW_WIDTH * 0.5 + 210, WINDOW_HEIGHT * 0.5 + 100)`,
even though integration runs after the anchor reset inside each substep. -/
theorem c3_anchor_positions_after_update (m : Master) (delta : ℝ)
    (h : 15 ≤ m.objects.length) :
    ((m.update delta).objects[0]?).map VerletObject.position = some Master.anchorPos0 ∧
    ((m.update delta).objects[14]?).map VerletObject.position = some Master.anchorPos14 := by
  rw [Master.update_eq_iterate, show (4 : ℕ) = 3 + 1 from rfl,
    Function.iterate_succ_apply']
  refine Master.substep_anchor_positions _ _ ?_
  rw [Master.objects_length_substep_iterate]
  exact h

/-- Witness for C3 on the initial 15-particle world. -/
theorem c3_anchor_positions_after_update_witness :
    ((mW.update 1).objects[0]?).map VerletObject.position = some Master.anchorPos0 ∧
    ((mW.update 1).objects[14]?).map VerletObject.position = some Master.anchorPos14 :=
  c3_anchor_positions_after_update mW 1 (by simp [mW, generate_objects])

/-- C9: for every world with at least 15 particles and every frame delta,
immediately after `Master::update` returns every particle's acceleration is
the zero vector — each substep ends with `update_positions`, which zeroes
every acceleration, so accumulated gravity never carries across frames. -/
theorem c9_zero_acceleration_after_update (m : Master) (delta : ℝ)
    (h : 15 ≤ m.objects.length) (i : ℕ) (hi : i < m.objects.length) :
    ((m.update delta).objects[i]?).map VerletObject.acceleration = some 0 := by
  rw [Master.update_eq_iterate, show (4 : ℕ) = 3 + 1 from rfl,
    Function.iterate_succ_apply']
  refine Master.update_positions_getElem_acc _ _ i ?_
  rw [Master.objects_length_resetAnchors, Master.objects_length_apply_chain_links,
    Master.objects_length_solve_collisions, Master.objects_length_apply_constraint,
    Master.objects_length_apply_gravity, Master.objects_length_substep_iterate]
  exact hi

/-- Witness for C9 on the initial world at index 0. -/
theorem c9_zero_acceleration_after_update_witness :
    ((mW.update 1).objects[0]?).map VerletObject.acceleration = some 0 :=
  c9_zero_acceleration_after_update mW 1 (by simp [mW, generate_objects]) 0
    (by simp [mW, generate_objects])

namespace Vec2

theorem smul_smul_vec (a b : ℝ) (v : Vec2) : a • (b • v) = (a * b) • v := by
  refine ext_xy ?_ ?_ <;> simp <;> ring

theorem add_sub_cancel_vec (u v : Vec2) : (u + v) - u = v := by
  refine ext_xy ?_ ?_ <;> simp

end Vec2

namespace Master

theorem constrainObject_clamped (o : VerletObject)
    (hg : CONSTRAINT_RADIUS - o.radius < (o.position - constraintCenter).length) :
    (constrainObject o).position =
      constraintCenter +
        ((CONSTRAINT_RADIUS - o.radius) / (o.position - constraintCenter).length) •
          (o.position - constraintCenter) := by
  unfold constrainObject
  dsimp only
  rw [if_pos hg]
  dsimp only
  rw [Vec2.div_eq_smul, Vec2.smul_smul_vec, div_eq_mul_inv]

theorem constrainObject_unclamped (o : VerletObject)
    (hg : ¬ CONSTRAINT_RADIUS - o.radius < (o.position - constraintCenter).length) :
    constrainObject o = o := by
  unfold constrainObject
  dsimp only
  rw [if_neg hg]

theorem constrainObject_clamped_length (o : VerletObject)
    (hr : o.radius < CONSTRAINT_RADIUS)
    (hg : CONSTRAINT_RADIUS - o.radius < (o.position - constraintCenter).length) :
    ((constrainObject o).position - constraintCenter).length
      = CONSTRAINT_RADIUS - o.radius := by
  have hd : 0 < (o.position - constraintCenter).length := by
    refine lt_of_le_of_lt ?_ hg
    linarith
  rw [constrainObject_clamped o hg, Vec2.add_sub_cancel_vec, Vec2.length_smul,
    abs_of_nonneg (div_nonneg (by linarith) hd.le), div_mul_cancel₀ _ hd.ne']

end Master

/-- C4: after `apply_constraint`, every particle with radius below the
boundary radius lies within distance `CONSTRAINT_RADIUS - radius` of the
boundary center; a particle beyond that circle is placed exactly on it
along the original direction from the center, and a particle already within
it is unchanged. -/
theorem c4_boundary_containment (m : Master) (i : ℕ) (o : VerletObject)
    (ho : m.objects[i]? = some o) (hr : o.radius < CONSTRAINT_RADIUS) :
    ∃ o', m.apply_constraint.objects[i]? = some o' ∧
      (o'.position - Master.constraintCenter).length ≤ CONSTRAINT_RADIUS - o.radius ∧
      (CONSTRAINT_RADIUS - o.radius < (o.position - Master.constraintCenter).length →
        o'.position = Master.constraintCenter +
          ((CONSTRAINT_RADIUS - o.radius) / (o.position - Master.constraintCenter).length) •
            (o.position - Master.constraintCenter) ∧
        (o'.position - Master.constraintCenter).length = CONSTRAINT_RADIUS - o.radius) ∧
      ((o.position - Master.constraintCenter).length ≤ CONSTRAINT_RADIUS - o.radius →
        o' = o) := by
  refine ⟨Master.constrainObject o, ?_, ?_, ?_, ?_⟩
  · unfold Master.apply_constraint
    dsimp only
    rw [List.getElem?_map, ho]
    rfl
  · by_cases hg : CONSTRAINT_RADIUS - o.radius < (o.position - Master.constraintCenter).length
    · rw [Master.constrainObject_clamped_length o hr hg]
    · rw [Master.constrainObject_unclamped o hg]
      linarith [not_lt.mp hg]
  · intro hg
    exact ⟨Master.constrainObject_clamped o hg, Master.constrainObject_clamped_length o hr hg⟩
  · intro hg
    exact Master.constrainObject_unclamped o (not_lt.mpr hg)

/-- Witness for C4 on a one-particle world with the particle 400 units from
the center. -/
theorem c4_boundary_containment_witness :
    ∃ o', mC4.apply_constraint.objects[0]? = some o' ∧
      (o'.position - Master.constraintCenter).length ≤ CONSTRAINT_RADIUS - oC4.radius ∧
      (CONSTRAINT_RADIUS - oC4.radius < (oC4.position - Master.constraintCenter).length →
        o'.position = Master.constraintCenter +
          ((CONSTRAINT_RADIUS - oC4.radius) / (oC4.position - Master.constraintCenter).length) •
            (oC4.position - Master.constraintCenter) ∧
        (o'.position - Master.constraintCenter).length = CONSTRAINT_RADIUS - oC4.radius) ∧
      ((oC4.position - Master.constraintCenter).length ≤ CONSTRAINT_RADIUS - oC4.radius →
        o' = oC4) :=
  c4_boundary_containment mC4 0 oC4 rfl
    (by norm_num [oC4, CONSTRAINT_RADIUS])

namespace Master

theorem linkStep_eq (objs : List VerletObject) (l : ChainLink) (oa ob : VerletObject)
    (ha : objs[l.a]? = some oa) (hb : objs[l.b]? = some ob)
    (hpos : 0 < (oa.position - ob.position).length) :
    linkStep objs l =
      (objs.set l.a { oa with position := oa.position +
          (0.5 * (l.target_distance - (oa.position - ob.position).length)) •
            ((oa.position - ob.position).length⁻¹ • (oa.position - ob.position)) }).set l.b
        { ob with position := ob.position -
          (0.5 * (l.target_distance - (oa.position - ob.position).length)) •
            ((oa.position - ob.position).length⁻¹ • (oa.position - ob.position)) } := by
  have hne : l.a ≠ l.b := by
    intro he
    rw [he, hb] at ha
    have hoa : oa = ob := (Option.some.inj ha).symm
    rw [hoa] at hpos
    have : (ob.position - ob.position) = 0 := by
      refine Vec2.ext_xy ?_ ?_ <;> simp
    rw [this, (Vec2.length_eq_zero_iff 0).mpr rfl] at hpos
    exact lt_irrefl 0 hpos
  unfold linkStep
  rw [ha, hb]
  dsimp only
  rw [List.getElem?_set_ne hne, hb]
  dsimp only
  rw [Vec2.div_eq_smul]

end Master

/-- C7: a chain link whose endpoints are at positive separation moves
endpoint `a` by `+0.5 * (target_distance - length) * direction` and
endpoint `b` by the negation of that displacement, where `direction` is the
unit vector from `b` to `a`; and `apply_chain_links` processes the links in
collection order, later links seeing positions modified by earlier ones. -/
theorem c7_chain_link_displacement (objs : List VerletObject) (l : ChainLink)
    (oa ob : VerletObject)
    (ha : objs[l.a]? = some oa) (hb : objs[l.b]? = some ob)
    (hpos : 0 < (oa.position - ob.position).length) :
    Master.linkStep objs l =
      (objs.set l.a { oa with position := oa.position +
          (0.5 * (l.target_distance - (oa.position - ob.position).length)) •
            ((oa.position - ob.position).length⁻¹ • (oa.position - ob.position)) }).set l.b
        { ob with position := ob.position -
          (0.5 * (l.target_distance - (oa.position - ob.position).length)) •
            ((oa.position - ob.position).length⁻¹ • (oa.position - ob.position)) } ∧
    ∀ w : Master,
      w.apply_chain_links = { w with objects := w.chain_links.foldl Master.linkStep w.objects } :=
  ⟨Master.linkStep_eq objs l oa ob ha hb hpos, fun _ => rfl⟩

/-- Witness for C7 on a concrete two-particle chain at separation 10. -/
theorem c7_chain_link_displacement_witness :
    Master.linkStep objs7 l7 =
      (objs7.set l7.a { o7a with position := o7a.position +
          (0.5 * (l7.target_distance - (o7a.position - o7b.position).length)) •
            ((o7a.position - o7b.position).length⁻¹ • (o7a.position - o7b.position)) }).set l7.b
        { o7b with position := o7b.position -
          (0.5 * (l7.target_distance - (o7a.position - o7b.position).length)) •
            ((o7a.position - o7b.position).length⁻¹ • (o7a.position - o7b.position)) } :=
  (c7_chain_link_displacement objs7 l7 o7a o7b rfl rfl
    (by
      rw [Vec2.length_of_y_eq_zero _ (by simp [o7a, o7b])]
      simp [o7a, o7b]
      norm_num)).1

namespace Master

theorem sub_self_vec (v : Vec2) : v - v = 0 := by
  refine Vec2.ext_xy ?_ ?_ <;> simp

theorem center_particle_not_clamped (o : VerletObject)
    (hc : o.position = constraintCenter) (hr : o.radius ≤ CONSTRAINT_RADIUS) :
    ¬ constraintClampTriggered o := by
  unfold constraintClampTriggered
  rw [hc, sub_self_vec, (Vec2.length_eq_zero_iff 0).mpr rfl]
  linarith

end Master

/-- C8 counterexample: a particle of radius 10 exactly at the boundary
center does not take the normalization branch of `apply_constraint` (the
guard `distance > CONSTRAINT_RADIUS - radius` is false at distance 0), and
the particle is left unchanged — so the division by `distance` is not
reached, contrary to the claim. -/
theorem c8_center_counterexample :
    oCenter.position = Master.constraintCenter ∧
    ¬ Master.constraintClampTriggered oCenter ∧
    Master.constrainObject oCenter = oCenter := by
  have hnt : ¬ Master.constraintClampTriggered oCenter :=
    Master.center_particle_not_clamped oCenter rfl (by norm_num [oCenter, CONSTRAINT_RADIUS])
  exact ⟨rfl, hnt, Master.constrainObject_unclamped oCenter hnt⟩

/-- C8 amended: for a particle exactly at the boundary center, the
normalization (division by the zero distance) is reached if and only if the
particle's radius exceeds `CONSTRAINT_RADIUS`; for any radius at most
`CONSTRAINT_RADIUS` the branch guard is false and the particle is left
unchanged. -/
theorem c8_center_guard_iff (o : VerletObject)
    (hc : o.position = Master.constraintCenter) :
    (Master.constraintClampTriggered o ↔ CONSTRAINT_RADIUS < o.radius) ∧
    (o.radius ≤ CONSTRAINT_RADIUS → Master.constrainObject o = o) := by
  constructor
  · unfold Master.constraintClampTriggered
    rw [hc, Master.sub_self_vec, (Vec2.length_eq_zero_iff 0).mpr rfl]
    constructor
    · intro h; linarith
    · intro h; linarith
  · intro hr
    exact Master.constrainObject_unclamped o (Master.center_particle_not_clamped o hc hr)

/-- Witness for the amended C8: a radius-301 particle at the center does
take the normalization branch. -/
theorem c8_center_guard_iff_witness : Master.constraintClampTriggered oCenterBig :=
  (c8_center_guard_iff oCenterBig rfl).1.mpr (by norm_num [oCenterBig, CONSTRAINT_RADIUS])

namespace Vec2

theorem length_sub_comm (u v : Vec2) : (u - v).length = (v - u).length := by
  unfold length
  congr 1
  simp
  ring

theorem length_sub_xaxis (u v : Vec2) (hu : u.y = 0) (hv : v.y = 0) :
    (u - v).length = |u.x - v.x| := by
  rw [length_of_y_eq_zero _ (by simp [hu, hv])]
  simp

theorem add_ne_of_ne_zero (u w : Vec2) (hw : w ≠ 0) : u + w ≠ u := by
  intro h
  refine hw ?_
  have h2 : (u + w) - u = u - u := congrArg (fun z => z - u) h
  rw [add_sub_cancel_vec] at h2
  rw [h2]
  refine ext_xy ?_ ?_ <;> simp

end Vec2

namespace Master

theorem collideVisit_lt (objs : List VerletObject) (i j : ℕ) (oi oj : VerletObject)
    (hij : i ≠ j) (hi : objs[i]? = some oi) (hj : objs[j]? = some oj)
    (hlt : (oi.position - oj.position).length < oi.radius + oj.radius) :
    collideVisit objs i j =
      (objs.set i { oi with position := oi.position +
          (0.5 * (oi.radius + oj.radius - (oi.position - oj.position).length)) •
            ((oi.position - oj.position).div (oi.position - oj.position).length) }).set j
        { oj with position := oj.position -
          (0.5 * (oi.radius + oj.radius - (oi.position - oj.position).length)) •
            ((oi.position - oj.position).div (oi.position - oj.position).length) } := by
  unfold collideVisit
  rw [if_neg hij, hi, hj]
  dsimp only
  rw [if_pos hlt]

theorem collideVisit_ge (objs : List VerletObject) (i j : ℕ) (oi oj : VerletObject)
    (hi : objs[i]? = some oi) (hj : objs[j]? = some oj)
    (hge : ¬ (oi.position - oj.position).length < oi.radius + oj.radius) :
    collideVisit objs i j = objs := by
  unfold collideVisit
  by_cases hij : i = j
  · rw [if_pos hij]
  · rw [if_neg hij, hi, hj]
    dsimp only
    rw [if_neg hge]

theorem pair_new_axis (p q : Vec2) (D : ℝ) (h0 : 0 < (p - q).length) :
    ((p + (0.5 * (D - (p - q).length)) • ((p - q).div (p - q).length)) -
        (q - (0.5 * (D - (p - q).length)) • ((p - q).div (p - q).length)))
      = (D / (p - q).length) • (p - q) := by
  have hd : (p - q).length ≠ 0 := h0.ne'
  refine Vec2.ext_xy ?_ ?_ <;> simp <;> field_simp <;> ring

theorem smul_axis_length (p q : Vec2) (D : ℝ) (h0 : 0 < (p - q).length) (hD : 0 < D) :
    ((D / (p - q).length) • (p - q)).length = D := by
  rw [Vec2.length_smul, abs_of_pos (div_pos hD h0), div_mul_cancel₀ _ h0.ne']

theorem displacement_length (p q : Vec2) (k : ℝ) (h0 : 0 < (p - q).length) :
    (k • ((p - q).div (p - q).length)).length = |k| := by
  rw [Vec2.div_eq_smul, Vec2.smul_smul_vec, Vec2.length_smul, abs_mul,
    abs_of_pos (inv_pos.mpr h0), mul_assoc, inv_mul_cancel₀ h0.ne', mul_one]

theorem displacement_ne_zero (p q : Vec2) (k : ℝ) (h0 : 0 < (p - q).length)
    (hk : k ≠ 0) :
    k • ((p - q).div (p - q).length) ≠ 0 := by
  intro h
  have := displacement_length p q k h0
  rw [h, (Vec2.length_eq_zero_iff 0).mpr rfl] at this
  exact hk (abs_eq_zero.mp this.symm)

theorem setPos_congr (o : VerletObject) {u v : Vec2} (h : u = v) :
    ({ o with position := u } : VerletObject) = { o with position := v } := by
  rw [h]

theorem pair_visit_analysis (a b : VerletObject)
    (h0 : 0 < (a.position - b.position).length)
    (hlt : (a.position - b.position).length < a.radius + b.radius) :
    collideVisit [a, b] 0 1 ≠ [a, b] ∧
    collideVisit (collideVisit [a, b] 0 1) 1 0 = collideVisit [a, b] 0 1 ∧
    ∃ a' b', collideVisit [a, b] 0 1 = [a', b'] ∧
      (a'.position - b'.position).length = a.radius + b.radius := by
  have hD : 0 < a.radius + b.radius := lt_trans h0 hlt
  obtain ⟨A, B, hv, hApos, hBpos, hArad, hBrad⟩ :
      ∃ A B, collideVisit [a, b] 0 1 = [A, B] ∧
        A.position = a.position +
          (0.5 * (a.radius + b.radius - (a.position - b.position).length)) •
            ((a.position - b.position).div (a.position - b.position).length) ∧
        B.position = b.position -
          (0.5 * (a.radius + b.radius - (a.position - b.position).length)) •
            ((a.position - b.position).div (a.position - b.position).length) ∧
        A.radius = a.radius ∧ B.radius = b.radius := by
    refine ⟨{ a with position := a.position +
        (0.5 * (a.radius + b.radius - (a.position - b.position).length)) •
          ((a.position - b.position).div (a.position - b.position).length) },
      { b with position := b.position -
        (0.5 * (a.radius + b.radius - (a.position - b.position).length)) •
          ((a.position - b.position).div (a.position - b.position).length) },
      ?_, rfl, rfl, rfl, rfl⟩
    rw [collideVisit_lt [a, b] 0 1 a b (by omega) rfl rfl hlt]
    rfl
  have hax : A.position - B.position
      = ((a.radius + b.radius) / (a.position - b.position).length) •
          (a.position - b.position) := by
    rw [hApos, hBpos]
    exact pair_new_axis a.position b.position (a.radius + b.radius) h0
  have hlen : (A.position - B.position).length = a.radius + b.radius := by
    rw [hax]
    exact smul_axis_length a.position b.position (a.radius + b.radius) h0 hD
  refine ⟨?_, ?_, A, B, hv, hlen⟩
  · intro h
    rw [hv] at h
    injection h with h1 h2
    have hk : (0.5 : ℝ) * (a.radius + b.radius - (a.position - b.position).length) ≠ 0 :=
      ne_of_gt (by linarith)
    have hw := displacement_ne_zero a.position b.position _ h0 hk
    have hApos' : a.position +
        (0.5 * (a.radius + b.radius - (a.position - b.position).length)) •
          ((a.position - b.position).div (a.position - b.position).length)
        = a.position := by
      rw [← hApos, h1]
    exact Vec2.add_ne_of_ne_zero a.position _ hw hApos'
  · refine collideVisit_ge (collideVisit [a, b] 0 1) 1 0 B A ?_ ?_ ?_
    · rw [hv]; rfl
    · rw [hv]; rfl
    · rw [Vec2.length_sub_comm, hlen, hBrad, hArad, add_comm b.radius a.radius]
      exact lt_irrefl _


end Master

/-- C5 counterexample: two unit-radius particles start overlapping (distance
1 < 2); the visit of the ordered pair (0, 1) applies a correction (the state
changes), but the visit of the reverse ordered pair (1, 0) applies none (it
leaves the state fixed) — the pair is not corrected twice in one call. -/
theorem c5_double_correction_counterexample :
    (q0.position - q1.position).length < q0.radius + q1.radius ∧
    Master.collideVisit mPair.objects 0 1 ≠ mPair.objects ∧
    Master.collideVisit (Master.collideVisit mPair.objects 0 1) 1 0
      = Master.collideVisit mPair.objects 0 1 := by
  have hd : (q0.position - q1.position).length = 1 := by
    rw [Vec2.length_sub_xaxis _ _ rfl rfl]
    norm_num [q0, q1]
  have h0 : 0 < (q0.position - q1.position).length := by rw [hd]; norm_num
  have hlt : (q0.position - q1.position).length < q0.radius + q1.radius := by
    rw [hd]; norm_num [q0, q1]
  obtain ⟨h1, h2, _⟩ := Master.pair_visit_analysis q0 q1 h0 hlt
  exact ⟨hlt, h1, h2⟩

/-- C5 amended: in a two-particle world with overlapping particles at
positive separation, `solve_collisions` corrects the pair exactly once: the
visit of (0, 1) changes the state, the visit of (1, 0) then finds the
particles exactly at separation `r0 + r1` and applies no further correction
(in exact real arithmetic), and the whole call equals the single (0, 1)
correction. -/
theorem c5_single_correction_per_pair (a b : VerletObject) (cl : List ChainLink)
    (h0 : 0 < (a.position - b.position).length)
    (hlt : (a.position - b.position).length < a.radius + b.radius) :
    Master.collideVisit [a, b] 0 1 ≠ [a, b] ∧
    Master.collideVisit (Master.collideVisit [a, b] 0 1) 1 0
      = Master.collideVisit [a, b] 0 1 ∧
    (Master.solve_collisions { objects := [a, b], chain_links := cl }).objects
      = Master.collideVisit [a, b] 0 1 := by
  obtain ⟨h1, h2, _⟩ := Master.pair_visit_analysis a b h0 hlt
  refine ⟨h1, h2, ?_⟩
  show Master.collideVisit (Master.collideVisit [a, b] 0 1) 1 0
      = Master.collideVisit [a, b] 0 1
  exact h2

/-- Witness for the amended C5 on the concrete overlapping pair. -/
theorem c5_single_correction_per_pair_witness :
    Master.collideVisit [q0, q1] 0 1 ≠ [q0, q1] ∧
    Master.collideVisit (Master.collideVisit [q0, q1] 0 1) 1 0
      = Master.collideVisit [q0, q1] 0 1 ∧
    (Master.solve_collisions { objects := [q0, q1], chain_links := [] }).objects
      = Master.collideVisit [q0, q1] 0 1 :=
  c5_single_correction_per_pair q0 q1 []
    (by
      rw [Vec2.length_sub_xaxis _ _ rfl rfl]
      norm_num [q0, q1])
    (by
      rw [Vec2.length_sub_xaxis _ _ rfl rfl]
      norm_num [q0, q1])

/-- C6 amended: in a two-particle world, an overlapping pair at positive
separation ends one `solve_collisions` call at distance exactly the sum of
the radii, which is at least the initial distance. -/
theorem c6_two_particle_separation (a b : VerletObject) (cl : List ChainLink)
    (h0 : 0 < (a.position - b.position).length)
    (hlt : (a.position - b.position).length < a.radius + b.radius) :
    ∃ a' b', (Master.solve_collisions { objects := [a, b], chain_links := cl }).objects
        = [a', b'] ∧
      (a'.position - b'.position).length = a.radius + b.radius ∧
      (a.position - b.position).length ≤ (a'.position - b'.position).length := by
  obtain ⟨_, h2, A, B, hv, hlen⟩ := Master.pair_visit_analysis a b h0 hlt
  refine ⟨A, B, ?_, hlen, ?_⟩
  · show Master.collideVisit (Master.collideVisit [a, b] 0 1) 1 0 = [A, B]
    rw [h2, hv]
  · rw [hlen]
    exact hlt.le

/-- Witness for the amended C6 on a concrete overlapping pair. -/
theorem c6_two_particle_separation_witness :
    ∃ a' b', (Master.solve_collisions { objects := [q0, q1], chain_links := [] }).objects
        = [a', b'] ∧
      (a'.position - b'.position).length = q0.radius + q1.radius ∧
      (q0.position - q1.position).length ≤ (a'.position - b'.position).length :=
  c6_two_particle_separation q0 q1 []
    (by
      rw [Vec2.length_sub_xaxis _ _ rfl rfl]
      norm_num [q0, q1])
    (by
      rw [Vec2.length_sub_xaxis _ _ rfl rfl]
      norm_num [q0, q1])

theorem VerletObject.ext_fields {u v : VerletObject} (h1 : u.position = v.position)
    (h2 : u.last_position = v.last_position) (h3 : u.acceleration = v.acceleration)
    (h4 : u.radius = v.radius) (h5 : u.color = v.color) : u = v := by
  cases u; cases v
  cases h1; cases h2; cases h3; cases h4; cases h5
  rfl

/-- C6 counterexample: in the three-particle world `mTriple`, particles 0
and 1 overlap (distance 1.9 < 2) before `solve_collisions`, yet after the
single call their distance is 1.3 < 1.9 — a later correction against the
large particle 2 pushes particle 1 back toward particle 0, so overlapping
pairs do not move apart monotonically in general. -/
theorem c6_monotonic_separation_counterexample :
    (r0.position - r1.position).length < r0.radius + r1.radius ∧
    (Master.solve_collisions mTriple).objects = [r0a, r1b, r2b] ∧
    (r0a.position - r1b.position).length < (r0.position - r1.position).length := by
  have d01 : (r0.position - r1.position).length = 19 / 10 := by
    rw [Vec2.length_sub_xaxis _ _ rfl rfl]
    norm_num [r0, r1]
  have v01 : Master.collideVisit [r0, r1, r2] 0 1 = [r0a, r1a, r2] := by
    rw [Master.collideVisit_lt [r0, r1, r2] 0 1 r0 r1 (by omega) rfl rfl
      (by rw [d01]; norm_num [r0, r1])]
    show [{ r0 with position := r0.position +
        (0.5 * (r0.radius + r1.radius - (r0.position - r1.position).length)) •
          ((r0.position - r1.position).div (r0.position - r1.position).length) },
      { r1 with position := r1.position -
        (0.5 * (r0.radius + r1.radius - (r0.position - r1.position).length)) •
          ((r0.position - r1.position).div (r0.position - r1.position).length) },
      r2] = [r0a, r1a, r2]
    rw [d01]
    simp only [List.cons.injEq, and_true, true_and]
    refine ⟨?_, ?_⟩
    · refine VerletObject.ext_fields ?_ rfl rfl rfl rfl
      refine Vec2.ext_xy ?_ ?_ <;> simp [r0, r1, r0a] <;> norm_num
    · refine VerletObject.ext_fields ?_ rfl rfl rfl rfl
      refine Vec2.ext_xy ?_ ?_ <;> simp [r0, r1, r1a] <;> norm_num
  have d02 : (r0a.position - r2.position).length = 33 / 5 := by
    rw [Vec2.length_sub_xaxis _ _ rfl rfl]
    norm_num [r0a, r0, r2]
  have v02 : Master.collideVisit [r0a, r1a, r2] 0 2 = [r0a, r1a, r2] :=
    Master.collideVisit_ge [r0a, r1a, r2] 0 2 r0a r2 rfl rfl
      (by rw [d02]; norm_num [r0a, r0, r2])
  have d10 : (r1a.position - r0a.position).length = 2 := by
    rw [Vec2.length_sub_xaxis _ _ rfl rfl]
    norm_num [r0a, r0, r1a, r1]
  have v10 : Master.collideVisit [r0a, r1a, r2] 1 0 = [r0a, r1a, r2] :=
    Master.collideVisit_ge [r0a, r1a, r2] 1 0 r1a r0a rfl rfl
      (by rw [d10]; norm_num [r0a, r0, r1a, r1])
  have d12 : (r1a.position - r2.position).length = 23 / 5 := by
    rw [Vec2.length_sub_xaxis _ _ rfl rfl]
    norm_num [r1a, r1, r2]
  have v12 : Master.collideVisit [r0a, r1a, r2] 1 2 = [r0a, r1b, r2b] := by
    rw [Master.collideVisit_lt [r0a, r1a, r2] 1 2 r1a r2 (by omega) rfl rfl
      (by rw [d12]; norm_num [r1a, r1, r2])]
    show [r0a, { r1a with position := r1a.position +
        (0.5 * (r1a.radius + r2.radius - (r1a.position - r2.position).length)) •
          ((r1a.position - r2.position).div (r1a.position - r2.position).length) },
      { r2 with position := r2.position -
        (0.5 * (r1a.radius + r2.radius - (r1a.position - r2.position).length)) •
          ((r1a.position - r2.position).div (r1a.position - r2.position).length) }]
      = [r0a, r1b, r2b]
    rw [d12]
    simp only [List.cons.injEq, and_true, true_and]
    refine ⟨?_, ?_⟩
    · refine VerletObject.ext_fields ?_ rfl rfl rfl rfl
      refine Vec2.ext_xy ?_ ?_ <;> simp [r1a, r1, r2, r1b] <;> norm_num
    · refine VerletObject.ext_fields ?_ rfl rfl rfl rfl
      refine Vec2.ext_xy ?_ ?_ <;> simp [r1a, r1, r2, r2b] <;> norm_num
  have d20 : (r2b.position - r0a.position).length = 73 / 10 := by
    rw [Vec2.length_sub_xaxis _ _ rfl rfl]
    norm_num [r2b, r2, r0a, r0]
  have v20 : Master.collideVisit [r0a, r1b, r2b] 2 0 = [r0a, r1b, r2b] :=
    Master.collideVisit_ge [r0a, r1b, r2b] 2 0 r2b r0a rfl rfl
      (by rw [d20]; norm_num [r2b, r2, r0a, r0])
  have d21 : (r2b.position - r1b.position).length = 6 := by
    rw [Vec2.length_sub_xaxis _ _ rfl rfl]
    norm_num [r2b, r2, r1b, r1]
  have v21 : Master.collideVisit [r0a, r1b, r2b] 2 1 = [r0a, r1b, r2b] :=
    Master.collideVisit_ge [r0a, r1b, r2b] 2 1 r2b r1b rfl rfl
      (by rw [d21]; norm_num [r2b, r2, r1b, r1])
  have dfinal : (r0a.position - r1b.position).length = 13 / 10 := by
    rw [Vec2.length_sub_xaxis _ _ rfl rfl]
    norm_num [r0a, r0, r1b, r1]
  refine ⟨by rw [d01]; norm_num [r0, r1], ?_, ?_⟩
  · show Master.collideVisit (Master.collideVisit (Master.collideVisit
        (Master.collideVisit (Master.collideVisit (Master.collideVisit
          [r0, r1, r2] 0 1) 0 2) 1 0) 1 2) 2 0) 2 1 = [r0a, r1b, r2b]
    rw [v01, v02, v10, v12, v20, v21]
  · rw [dfinal, d01]
    norm_num

namespace Master

theorem linkStepChecked_eq (objs : List VerletObject) (l : ChainLink)
    (ha : l.a < objs.length) (hb : l.b < objs.length) :
    linkStepChecked objs l = some (linkStep objs l) := by
  unfold linkStepChecked linkStep
  rw [List.getElem?_eq_getElem ha, List.getElem?_eq_getElem hb]
  dsimp only
  rw [List.getElem?_eq_getElem (by simpa using hb)]

theorem linkFoldM_eq (ls : List ChainLink) (objs : List VerletObject)
    (h : ∀ l ∈ ls, l.a < objs.length ∧ l.b < objs.length) :
    ls.foldlM linkStepChecked objs = some (ls.foldl linkStep objs) := by
  induction ls generalizing objs with
  | nil => rfl
  | cons l ls ih =>
    rw [List.foldlM_cons,
      linkStepChecked_eq objs l (h l (List.mem_cons_self l ls)).1 (h l (List.mem_cons_self l ls)).2]
    show ls.foldlM linkStepChecked (linkStep objs l) = _
    rw [List.foldl_cons]
    refine ih (linkStep objs l) ?_
    intro l' hl'
    rw [length_linkStep]
    exact h l' (List.mem_cons_of_mem l hl')

theorem applyChainLinksChecked_eq (m : Master)
    (h : ∀ l ∈ m.chain_links, l.a < m.objects.length ∧ l.b < m.objects.length) :
    applyChainLinksChecked m = some m.apply_chain_links := by
  unfold applyChainLinksChecked apply_chain_links
  rw [linkFoldM_eq m.chain_links m.objects h]
  rfl

theorem resetAnchorsChecked_eq (m : Master) (h : 15 ≤ m.objects.length) :
    resetAnchorsChecked m = some m.resetAnchors := by
  unfold resetAnchorsChecked resetAnchors resetAnchor
  rw [List.getElem?_eq_getElem (show 0 < m.objects.length by omega)]
  dsimp only
  rw [List.getElem?_eq_getElem
    (show 14 < (m.objects.set 0
        (VerletObject.new anchorPos0 10 m.objects[0].color)).length by
      rw [List.length_set]; omega)]

theorem substepChecked_eq (m : Master) (d : ℝ) (h : validIndices m) :
    substepChecked m d = some (m.substep d) := by
  obtain ⟨h15, hlinks⟩ := h
  have hlen3 : (m.apply_gravity.apply_constraint.solve_collisions).objects.length
      = m.objects.length := by
    rw [objects_length_solve_collisions, objects_length_apply_constraint,
      objects_length_apply_gravity]
  unfold substepChecked
  rw [applyChainLinksChecked_eq (m.apply_gravity.apply_constraint.solve_collisions)
    (by
      intro l hl
      rw [hlen3]
      exact hlinks l hl)]
  show (resetAnchorsChecked
      (m.apply_gravity.apply_constraint.solve_collisions.apply_chain_links)).bind
        (fun m5 => some (m5.update_positions d)) = some (m.substep d)
  rw [resetAnchorsChecked_eq _
    (by rw [objects_length_apply_chain_links, hlen3]; exact h15)]
  rfl

theorem validIndices_substep (m : Master) (d : ℝ) (h : validIndices m) :
    validIndices (m.substep d) := by
  obtain ⟨h15, hlinks⟩ := h
  constructor
  · rw [objects_length_substep]; exact h15
  · intro l hl
    rw [objects_length_substep]
    exact hlinks l hl

theorem substepFoldM_eq (n : ℕ) (m : Master) (d : ℝ) (h : validIndices m) :
    (List.range n).foldlM (fun acc _ => substepChecked acc d) m
      = some ((fun w => Master.substep w d)^[n] m) := by
  induction n generalizing m with
  | zero => rfl
  | succ k ih =>
    rw [List.range_succ_eq_map, List.foldlM_cons, substepChecked_eq m d h]
    show ((List.range k).map Nat.succ).foldlM (fun acc _ => substepChecked acc d)
        (m.substep d) = _
    rw [List.foldlM_map, ih (m.substep d) (validIndices_substep m d h),
      Function.iterate_succ_apply]

theorem updateChecked_eq (m : Master) (delta : ℝ) (h : validIndices m) :
    updateChecked m delta = some (m.update delta) := by
  have hc : ((PHYSICS_SUBSTEPS : ℕ) : ℝ) = 4 := by norm_num [PHYSICS_SUBSTEPS]
  unfold updateChecked
  dsimp only
  rw [hc, show PHYSICS_SUBSTEPS = 4 from rfl, update_eq_iterate]
  exact substepFoldM_eq 4 m (delta / 4) h

end Master

/-- C10: under the precondition that the world holds at least 15 particles
and every chain link's endpoints are in range, all indexing performed by
`Master::update` is in bounds (the checked embedding takes no error branch
and agrees with the total one); the precondition holds for the initial
world built by `generate_objects` / `generate_chain_links` and is preserved
when a particle is appended. -/
theorem c10_update_indexing_in_bounds (m : Master) (delta : ℝ) (colors : ℕ → Color)
    (o : VerletObject) :
    (Master.validIndices m → m.updateChecked delta = some (m.update delta)) ∧
    Master.validIndices
      { objects := generate_objects colors, chain_links := generate_chain_links } ∧
    (Master.validIndices m → Master.validIndices (m.pushObject o)) := by
  refine ⟨fun h => Master.updateChecked_eq m delta h, ⟨?_, ?_⟩, fun h => ⟨?_, ?_⟩⟩
  · simp [generate_objects]
  · intro l hl
    simp only [generate_chain_links, List.mem_map, List.mem_range] at hl
    obtain ⟨k, hk, rfl⟩ := hl
    simp [generate_objects]
    omega
  · show 15 ≤ (m.objects ++ [o]).length
    rw [List.length_append]
    have := h.1
    simp only [List.length_cons, List.length_nil]
    omega
  · intro l hl
    have hb := h.2 l hl
    show l.a < (m.objects ++ [o]).length ∧ l.b < (m.objects ++ [o]).length
    rw [List.length_append]
    simp only [List.length_cons, List.length_nil]
    omega

/-- Witness for C10: the checked update on the initial world reaches no
error branch and agrees with the total semantics. -/
theorem c10_update_indexing_in_bounds_witness :
    mW.updateChecked 1 = some (mW.update 1) :=
  (c10_update_indexing_in_bounds mW 1 (fun _ => colW) pW).1
    ((c10_update_indexing_in_bounds mW 1 (fun _ => colW) pW).2.1)
